import Mathlib

/-!
Shallow embedding of `placsp_module.py` (PLACSP daily tenders by CPV).

Python strings are modelled as Lean `String` (lists of characters); the
Python string operations used by the source (`strip`, `isdigit`, `zfill`,
`startswith`, `lower`, `endswith`, `";".join`, `sorted`, `set`) are
modelled explicitly below.  XML element trees, as produced by the
tolerant feed parser and queried with namespace-agnostic local-name
paths, are modelled by the inductive type `XNode`.
-/

namespace Placsp

/-- Model of Python's ASCII decimal digit test on one character
(the classification codes handled by the source are ASCII). -/
def pyIsDigit (c : Char) : Bool := '0' ≤ c && c ≤ '9'

/-- Model of Python's whitespace set used by `str.strip()`. -/
def pyIsSpace (c : Char) : Bool :=
  c = ' ' || c = '\t' || c = '\n' || c = '\r' || c = '\x0b' || c = '\x0c'

/-- Model of Python `str.strip()`: drop leading and trailing whitespace. -/
def pyStrip (s : String) : String :=
  ⟨((s.data.dropWhile pyIsSpace).reverse.dropWhile pyIsSpace).reverse⟩

/-- Model of Python `str.isdigit()` (restricted to ASCII digits):
true iff the string is non-empty and every character is a digit. -/
def pyIsdigitStr (s : String) : Bool :=
  !s.data.isEmpty && s.data.all pyIsDigit

/-- Model of Python `str.zfill(w)` on an unsigned string:
left-pad with `'0'` up to width `w`, leave longer strings unchanged. -/
def zfill (s : String) (w : Nat) : String :=
  ⟨List.replicate (w - s.data.length) '0' ++ s.data⟩

/-- Model of Python `str.startswith(pre)`. -/
def pyStartswith (s pre : String) : Bool :=
  pre.data.isPrefixOf s.data

/-- Lexicographic comparison of character lists by code point,
modelling Python's string order used by `sorted(...)`. -/
def lexLeChars : List Char → List Char → Bool
  | [], _ => true
  | _ :: _, [] => false
  | a :: as, b :: bs =>
    if a < b then true
    else if b < a then false
    else lexLeChars as bs

/-- Python's `≤` on strings: lexicographic by code point. -/
def strLe (a b : String) : Bool := lexLeChars a.data b.data

/-- The ordering relation used to model Python's `sorted` on strings. -/
def strOrd (a b : String) : Prop := strLe a b = true

instance : DecidableRel strOrd := fun a b =>
  inferInstanceAs (Decidable (strLe a b = true))

/-- The built-in default CPV list (`DEFAULT_CPV` in the source). -/
def DEFAULT_CPV : List String := ["09330000", "45261215", "45315300"]

/-- The survivor predicate of the normalization in `run_placsp`:
`if c and c.strip().isdigit()`. -/
def keepCode (c : String) : Bool :=
  !(c == "") && pyIsdigitStr (pyStrip c)

/-- Target-criteria normalization from `run_placsp` (lines 140–141):
`{c.strip() for c in codes if c and c.strip().isdigit()}` followed by
`{c.zfill(8) for c in ...}`.  The resulting Python set is represented
canonically as its sorted list of distinct elements. -/
def normalize_cpv (codes : List String) : List String :=
  List.insertionSort strOrd
    (((codes.filter keepCode).map (fun c => zfill (pyStrip c) 8)).dedup)

/-! ### XML element trees

The type `XNode` models one parsed XML element as seen through the source's
namespace-agnostic `local-name()` queries: a local tag name, an
attribute list, the element's own text content (`""` when the element
has no text node), and its child elements in document order. -/

inductive XNode : Type where
  | mk : String → List (String × String) → String → List XNode → XNode

/-- Local tag name of an element. -/
def XNode.tag : XNode → String
  | .mk t _ _ _ => t

/-- Attribute list of an element. -/
def XNode.attrs : XNode → List (String × String)
  | .mk _ a _ _ => a

/-- Own text content of an element (`""`: no text node). -/
def XNode.text : XNode → String
  | .mk _ _ s _ => s

/-- Child elements in document order. -/
def XNode.children : XNode → List XNode
  | .mk _ _ _ cs => cs

mutual

/-- All proper descendant elements of a node in document order
(the `.//*` axis of the source's xpath queries). -/
def XNode.descendants : XNode → List XNode
  | .mk _ _ _ cs => descList cs

/-- Descendant-or-self elements of each node of a list, in document order. -/
def descList : List XNode → List XNode
  | [] => []
  | c :: cs => (c :: XNode.descendants c) ++ descList cs

end

mutual

/-- XPath string value of an element: the concatenation of all its
text content in document order (own text before child text). -/
def stringValue : XNode → String
  | .mk _ _ s cs => s ++ stringValueList cs

/-- Concatenated string values of a list of elements. -/
def stringValueList : List XNode → String
  | [] => ""
  | c :: cs => stringValue c ++ stringValueList cs

end

/-- The XPath value of `string(./*[local-name()=t])`: the string value
of the first child element with local name `t`, or `""` when no child
matches (XPath `string()` of an empty node set). -/
def stringQueryChild (n : XNode) (t : String) : String :=
  match n.children.find? (fun c => c.tag == t) with
  | none => ""
  | some c => stringValue c

/-- The XPath value of `string(.//*[local-name()=t])`: the string value
of the first descendant element with local name `t`, or `""`. -/
def stringQueryDesc (n : XNode) (t : String) : String :=
  match n.descendants.find? (fun c => c.tag == t) with
  | none => ""
  | some c => stringValue c

/-- The XPath value of `string(./*[local-name()='link']/@href)`: the
`href` attribute of the first `link` child that carries one, or `""`. -/
def stringQueryHref (n : XNode) : String :=
  match (n.children.filterMap
      (fun c => if c.tag == "link" then c.attrs.lookup "href" else none)).head? with
  | none => ""
  | some v => v

/-- The function `text1` (source lines 49–54) applied to a `string(...)`
XPath result: lxml returns the string-typed result itself (a smart
string), not a node list, so `if not res` catches only the empty value
and `res[0]` is the first character of a non-empty value, which is a
`str` and is returned as is.  `text1` therefore yields the first
character of the string value, as a one-character string. -/
def text1 (sv : String) : String :=
  match sv.data with
  | [] => ""
  | c :: _ => ⟨[c]⟩

/-- The value `text1(node, "string(./*[local-name()=t])")` of the source:
the first character of the string value of the first matching child. -/
def childString (n : XNode) (t : String) : String :=
  text1 (stringQueryChild n t)

/-- The value `text1(node, "string(.//*[local-name()=t])")` of the source:
the first character of the string value of the first matching descendant. -/
def descString (n : XNode) (t : String) : String :=
  text1 (stringQueryDesc n t)

/-- The value `text1(entry, "string(./*[local-name()='link']/@href)")` of
the source: the first character of the first carried `href` value. -/
def linkHref (n : XNode) : String :=
  text1 (stringQueryHref n)

/-- The predicate `entry_is_for_date` (source lines 63–65): the `text1`
result for the entry's `updated` query — the first character of the
updated value — must be non-empty and start with the target ISO date.
For a real 10-character ISO date this can never hold. -/
def entry_is_for_date (entry : XNode) (iso_date : String) : Bool :=
  let upd := childString entry "updated"
  !(upd == "") && pyStartswith upd iso_date

/-- The function `entry_cpv_codes` (source lines 67–68): the text values of all
`ItemClassificationCode` descendants (`.//…/text()`; an element with no
text node contributes nothing). -/
def entry_cpv_codes (entry : XNode) : List String :=
  (entry.descendants.filter (fun c => c.tag == "ItemClassificationCode")).filterMap
    (fun c => if c.text == "" then none else some c.text)

/-- The normalized output record (the dict built by `extract_fields`). -/
structure TenderRecord where
  expediente : String
  objeto : String
  organo : String
  estado : String
  importe : String
  cpv : String
  fecha_updated : String
  enlace : String
deriving DecidableEq

/-- The expression `";".join(sorted(set(cpvs)))` of the source. -/
def joinCodes (cpvs : List String) : String :=
  String.intercalate ";" (List.insertionSort strOrd cpvs.dedup)

/-- The function `extract_fields` (source lines 70–89).  The seven
scalar fields go through `text1` on `string(...)` queries and therefore
hold at most the first character of the queried value; only `cpv`,
built from a node-set `text()` query via `texts`, carries full values. -/
def extract_fields (entry : XNode) : TenderRecord :=
  { expediente := descString entry "ContractFolderID"
    objeto := childString entry "title"
    organo := descString entry "ContractingPartyName"
    estado := descString entry "ContractFolderStatus"
    importe := descString entry "TotalAmount"
    cpv := joinCodes (entry_cpv_codes entry)
    fecha_updated := childString entry "updated"
    enlace := linkHref entry }

/-! ### Tolerant feed parsing

The function `iter_entries` in the source parses feed bytes with
`etree.XMLParser(recover=True, resolve_entities=False)` and collects
`//*[local-name()='entry']`.  The recovering parser itself lives in the
external XML library, not in this repository.

Modelled from the spec: the parser below follows §4.1/§9 of the spec —
"best-effort/recovering: unparseable fragments are dropped rather than
aborting the whole document", realised as the suggested "hand-rolled
forgiving scanner".  Input is a token stream (byte-level lexing
abstracted away): open tags carry attributes, close tags a name, text
tokens a string.  A stray close tag with no matching open element is
dropped; a close tag matching a deeper open element auto-closes the
elements above it; elements still open at end of input are auto-closed;
text outside any element is dropped. -/

inductive Tok : Type where
  | openT : String → List (String × String) → Tok
  | closeT : String → Tok
  | textT : String → Tok
deriving DecidableEq

/-- An element currently being built: tag, attributes, accumulated
text, and children accumulated in reverse document order. -/
structure Frame where
  tag : String
  attrs : List (String × String)
  text : String
  kidsRev : List XNode

/-- Close a frame into a finished element. -/
def closeFrame (f : Frame) : XNode :=
  .mk f.tag f.attrs f.text f.kidsRev.reverse

/-- Record a finished child element under a frame. -/
def addChild (g : Frame) (x : XNode) : Frame :=
  { g with kidsRev := x :: g.kidsRev }

/-- Append text content to the innermost open frame. -/
def addText (f : Frame) (s : String) : Frame :=
  { f with text := f.text ++ s }

/-- Attach a finished element to the innermost open frame, or to the
finished top-level forest (kept in reverse order) when none is open. -/
def attachNode (x : XNode) : List Frame → List XNode → List Frame × List XNode
  | [], done => ([], x :: done)
  | g :: rest, done => (addChild g x :: rest, done)

/-- Auto-close open elements, carrying the most recently closed element
into its parent, until a frame tagged `t` is closed. -/
def unwindCarry (t : String) (x : XNode) : List Frame → List XNode → List Frame × List XNode
  | [], done => ([], x :: done)
  | g :: rest, done =>
    if g.tag = t then attachNode (closeFrame (addChild g x)) rest done
    else unwindCarry t (closeFrame (addChild g x)) rest done

/-- Handle a close tag for `t` known to match some open frame: close
frames from the top of the stack down to and including that frame. -/
def unwindTo (t : String) : List Frame → List XNode → List Frame × List XNode
  | [], done => ([], done)
  | f :: rest, done =>
    if f.tag = t then attachNode (closeFrame f) rest done
    else unwindCarry t (closeFrame f) rest done

/-- One recovering parse step. -/
def rstep : List Frame × List XNode → Tok → List Frame × List XNode
  | (stack, done), .openT t a => (⟨t, a, "", []⟩ :: stack, done)
  | ([], done), .textT _ => ([], done)
  | (f :: rest, done), .textT s => (addText f s :: rest, done)
  | (stack, done), .closeT t =>
    if (stack.map Frame.tag).contains t then unwindTo t stack done
    else (stack, done)

/-- Auto-close every frame still open at end of input, attaching the
carried element into its parent at each step. -/
def finishInto (x : XNode) : List Frame → List XNode → List XNode
  | [], done => x :: done
  | g :: rest, done => finishInto (closeFrame (addChild g x)) rest done

/-- Finish the parse state at end of input. -/
def finishStack : List Frame → List XNode → List XNode
  | [], done => done
  | f :: rest, done => finishInto (closeFrame f) rest done

/-- The recovering parse of a whole token stream: the forest of
top-level elements in document order. -/
def recoverParse (toks : List Tok) : List XNode :=
  match toks.foldl rstep ([], []) with
  | (stack, done) => (finishStack stack done).reverse

/-- A strict (non-recovering) parser over the same tokens, used to
state that recovery agrees with strict parsing on well-formed input:
it fails on a close tag that does not match the innermost open
element, on text outside any element, and at end of input with
elements still open. -/
def strictGo : List Tok → List Frame → List XNode → Option (List XNode)
  | [], [], done => some done.reverse
  | [], _ :: _, _ => none
  | .openT t a :: ts, stack, done => strictGo ts (⟨t, a, "", []⟩ :: stack) done
  | .textT _ :: _, [], _ => none
  | .textT s :: ts, f :: rest, done => strictGo ts (addText f s :: rest) done
  | .closeT _ :: _, [], _ => none
  | .closeT t :: ts, f :: rest, done =>
    if f.tag = t then
      match rest with
      | [] => strictGo ts [] (closeFrame f :: done)
      | g :: rs => strictGo ts (addChild g (closeFrame f) :: rs) done
    else none

/-- Strict parse of a whole token stream. -/
def strictParse (toks : List Tok) : Option (List XNode) :=
  strictGo toks [] []

/-- Descendant-or-self elements of a forest, in document order
(the `//*` axis from the document root). -/
def allNodes (forest : List XNode) : List XNode :=
  forest.flatMap (fun r => r :: r.descendants)

/-- The function `iter_entries` (source lines 45–47): parse tolerantly and collect
every element with local name `entry`. -/
def iter_entries (toks : List Tok) : List XNode :=
  (allNodes (recoverParse toks)).filter (fun n => n.tag == "entry")

/-! ### The zip archive and the pipeline -/

/-- One archive member: its name and its content as a token stream, or
`none` when reading the listed member fails (`zf.read` raising
`KeyError` in the source). -/
structure Member where
  name : String
  content : Option (List Tok)

/-- An archive: its members in listing order (`zf.namelist()`). -/
structure ZipFile where
  members : List Member

/-- The member-name test of the source: `name.lower().endswith(".atom")`
(lower-casing character-wise, then a suffix test). -/
def isAtomName (name : String) : Bool :=
  ".atom".data.isSuffixOf (name.data.map Char.toLower)

/-- The test `set(entry_cpv_codes(e)) & cpv_targets` of the source is non-empty. -/
def codesIntersect (cpvs targets : List String) : Bool :=
  cpvs.any (fun c => targets.contains c)

/-- The function `process_zip_bytes` (source lines 94–111): for each member whose
lowercased name ends in `.atom` and which can be read, parse it and
accumulate `extract_fields e` for every entry `e` matching the target
date and intersecting the target code set. -/
def process_zip_bytes (z : ZipFile) (iso_date : String) (cpv_targets : List String) :
    List TenderRecord :=
  z.members.flatMap (fun m =>
    if isAtomName m.name then
      match m.content with
      | none => []
      | some toks =>
        (iter_entries toks).flatMap (fun e =>
          if entry_is_for_date e iso_date then
            if codesIntersect (entry_cpv_codes e) cpv_targets then
              [extract_fields e]
            else []
          else [])
    else [])

/-- The fatal failures of the pipeline: `ValueError` for invalid
configuration, the wrapped download failure (`RuntimeError`) for an
exhausted retrieval. -/
inductive RunError : Type where
  | configurationError : RunError
  | retrievalError : RunError
deriving DecidableEq

/-- The function `run_placsp` (source lines 128–169), restricted to the filtering
core: the target date is taken as an ISO string, the network download
and archive decoding are a collaborator passed as `download`
(`Except.error` models an exhausted retrieval), and the CSV/report
rendering after processing is out of scope.  `cpv or DEFAULT_CPV`
replaces a missing or empty caller list by the default list. -/
def run_placsp (download : Unit → Except Unit ZipFile) (iso_date : String)
    (cpv : Option (List String)) : Except RunError (List TenderRecord) :=
  let codes := match cpv with
    | none => DEFAULT_CPV
    | some l => if l.isEmpty then DEFAULT_CPV else l
  let cpv_targets := normalize_cpv codes
  if cpv_targets.isEmpty then
    .error .configurationError
  else
    match download () with
    | .error _ => .error .retrievalError
    | .ok z => .ok (process_zip_bytes z iso_date cpv_targets)

/-! ### Concrete fixtures used in instances and witnesses -/

/-- Entry carrying the duplicated classification codes of the spec's
de-duplication law. -/
def exDupEntry : XNode :=
  .mk "entry" [] ""
    [ .mk "ItemClassificationCode" [] "45261215" []
    , .mk "ItemClassificationCode" [] "45261215" []
    , .mk "ItemClassificationCode" [] "09330000" [] ]

/-- An entry with no children: every field query matches nothing. -/
def emptyEntry : XNode := .mk "entry" [] "" []

/-- Numeric value of a digit string, used to state that two codes are
numerically equal though textually different. -/
def digitsToNat (l : List Char) : Nat :=
  l.foldl (fun n c => 10 * n + (c.toNat - '0'.toNat)) 0

/-- An entry whose only classification code differs textually — but
not numerically — from the default target `"09330000"`. -/
def mismatchEntry : XNode :=
  .mk "entry" [] "" [.mk "ItemClassificationCode" [] "9330000" []]

/-- Trivial download collaborator used in concrete instances: the
retrieval succeeds and yields an archive with no members. -/
def okEmptyDownload : Unit → Except Unit ZipFile := fun _ => .ok ⟨[]⟩

/-- The entry of the spec's end-to-end scenario A: updated
`2024-03-05T10:00:00+01:00`, classification code `45261215`. -/
def scenarioEntry : XNode :=
  .mk "entry" [] ""
    [ .mk "updated" [] "2024-03-05T10:00:00+01:00" []
    , .mk "ItemClassificationCode" [] "45261215" [] ]

/-- A feed token stream parsing to exactly the scenario-A entry. -/
def scenarioToks : List Tok :=
  [ .openT "feed" []
  , .openT "entry" []
  , .openT "updated" [], .textT "2024-03-05T10:00:00+01:00", .closeT "updated"
  , .openT "ItemClassificationCode" [], .textT "45261215", .closeT "ItemClassificationCode"
  , .closeT "entry"
  , .closeT "feed" ]

/-- The scenario-A archive: one feed member holding the one entry. -/
def scenarioZip : ZipFile := ⟨[⟨"licitaciones.atom", some scenarioToks⟩]⟩

/-- A well-formed feed token stream and its parse, used to instantiate
the strict/recovering agreement. -/
def wfToks : List Tok :=
  [.openT "feed" [], .openT "entry" [], .closeT "entry", .closeT "feed"]

/-- The forest the well-formed stream parses to. -/
def wfForest : List XNode := [.mk "feed" [] "" [.mk "entry" [] "" []]]

/-! ### Order lemmas and sanity checks -/

theorem lexLeChars_total (as bs : List Char) :
    lexLeChars as bs = true ∨ lexLeChars bs as = true := by
  induction as generalizing bs with
  | nil => exact Or.inl rfl
  | cons a as ih =>
    cases bs with
    | nil => exact Or.inr rfl
    | cons b bs =>
      rcases lt_trichotomy a b with h | h | h
      · exact Or.inl (by simp [lexLeChars, h])
      · subst h
        rcases ih bs with h' | h'
        · exact Or.inl (by simp [lexLeChars, h'])
        · exact Or.inr (by simp [lexLeChars, h'])
      · exact Or.inr (by simp [lexLeChars, h])

theorem lexLeChars_trans {as bs cs : List Char}
    (h₁ : lexLeChars as bs = true) (h₂ : lexLeChars bs cs = true) :
    lexLeChars as cs = true := by
  induction as generalizing bs cs with
  | nil => rfl
  | cons a as ih =>
    cases bs with
    | nil => simp [lexLeChars] at h₁
    | cons b bs =>
      cases cs with
      | nil => simp [lexLeChars] at h₂
      | cons c cs =>
        rcases lt_trichotomy a b with hab | hab | hab
        · rcases lt_trichotomy b c with hbc | hbc | hbc
          · simp [lexLeChars, lt_trans hab hbc]
          · subst hbc; simp [lexLeChars, hab]
          · rcases lt_trichotomy a c with hac | hac | hac
            · simp [lexLeChars, hac]
            · subst hac; simp [lexLeChars, hbc, not_lt_of_gt hbc] at h₂
            · simp [lexLeChars, hbc, not_lt_of_gt hbc] at h₂
        · subst hab
          rcases lt_trichotomy a c with hac | hac | hac
          · simp [lexLeChars, hac]
          · subst hac
            simp only [lexLeChars, lt_irrefl, if_false] at h₁ h₂ ⊢
            exact ih h₁ h₂
          · simp [lexLeChars, hac, not_lt_of_gt hac] at h₂
        · simp [lexLeChars, hab, not_lt_of_gt hab] at h₁

instance : IsTotal String strOrd :=
  ⟨fun a b => lexLeChars_total a.data b.data⟩

instance : IsTrans String strOrd :=
  ⟨fun _ _ _ h₁ h₂ => lexLeChars_trans h₁ h₂⟩

-- sanity checks on the normalization model
example : normalize_cpv ["abc", "123"] = ["00000123"] := by decide
example : normalize_cpv [" 45261215 ", "45261215"] = ["45261215"] := by decide
example : normalize_cpv ["123456789"] = ["123456789"] := by decide
example : normalize_cpv [] = [] := by decide
example : normalize_cpv DEFAULT_CPV = DEFAULT_CPV := by decide

-- concrete evaluation sanity checks for the tree functions
example :
    XNode.descendants (.mk "a" [] "" [.mk "b" [] "x" [.mk "c" [] "y" []]]) =
      [.mk "b" [] "x" [.mk "c" [] "y" []], .mk "c" [] "y" []] := by
  simp [XNode.descendants, descList]

example :
    stringValue (.mk "a" [] "u" [.mk "b" [] "x" [.mk "c" [] "y" []]]) = "uxy" := by
  simp [stringValue, stringValueList]

/-! ### Helper lemmas about the string model -/

theorem pyIsDigit_not_space {c : Char} (h : pyIsDigit c = true) : pyIsSpace c = false := by
  cases hs : pyIsSpace c
  · rfl
  · exfalso
    simp only [pyIsSpace, Bool.or_eq_true, decide_eq_true_eq] at hs
    rcases hs with ((((h' | h') | h') | h') | h') | h' <;>
      subst h' <;> revert h <;> decide

theorem dropWhile_space_of_digits {l : List Char} (h : l.all pyIsDigit = true) :
    l.dropWhile pyIsSpace = l := by
  cases l with
  | nil => rfl
  | cons a t =>
    have ha : pyIsDigit a = true := by
      simp only [List.all_cons, Bool.and_eq_true] at h
      exact h.1
    simp [List.dropWhile_cons, pyIsDigit_not_space ha]

theorem pyStrip_of_digits {s : String} (h : s.data.all pyIsDigit = true) : pyStrip s = s := by
  have h' : s.data.reverse.all pyIsDigit = true := by
    simpa using h
  show String.mk _ = s
  rw [dropWhile_space_of_digits h, dropWhile_space_of_digits h', List.reverse_reverse]

theorem zfill_data (s : String) (w : Nat) :
    (zfill s w).data = List.replicate (w - s.data.length) '0' ++ s.data := rfl

theorem zfill_all_digits {s : String} (h : s.data.all pyIsDigit = true) (w : Nat) :
    (zfill s w).data.all pyIsDigit = true := by
  rw [zfill_data, List.all_append, Bool.and_eq_true]
  refine ⟨?_, h⟩
  simp only [List.all_eq_true]
  intro c hc
  rw [List.eq_of_mem_replicate hc]
  decide

theorem zfill_length (s : String) (w : Nat) :
    (zfill s w).data.length = max w s.data.length := by
  rw [zfill_data, List.length_append, List.length_replicate]
  omega

theorem zfill_of_le {s : String} {w : Nat} (h : w ≤ s.data.length) : zfill s w = s := by
  show String.mk _ = s
  rw [Nat.sub_eq_zero_of_le h, List.replicate_zero, List.nil_append]

theorem map_eq_self_of_mem {α : Type} {f : α → α} {l : List α}
    (h : ∀ x ∈ l, f x = x) : l.map f = l := by
  induction l with
  | nil => rfl
  | cons a t ih =>
    rw [List.map_cons, h a (List.mem_cons_self a t), ih (fun x hx => h x (List.mem_cons_of_mem a hx))]

theorem mem_normalize_cpv {l : List String} {c : String} :
    c ∈ normalize_cpv l ↔ ∃ d ∈ l, keepCode d = true ∧ c = zfill (pyStrip d) 8 := by
  simp only [normalize_cpv, List.mem_insertionSort, List.mem_dedup, List.mem_map,
    List.mem_filter]
  constructor
  · rintro ⟨d, ⟨hd, hk⟩, hc⟩
    exact ⟨d, hd, hk, hc.symm⟩
  · rintro ⟨d, hd, hk, hc⟩
    exact ⟨d, ⟨hd, hk⟩, hc.symm⟩

theorem normalize_cpv_digits {l : List String} {c : String} (h : c ∈ normalize_cpv l) :
    c.data.all pyIsDigit = true ∧ 8 ≤ c.data.length := by
  rcases mem_normalize_cpv.mp h with ⟨d, _, hk, hc⟩
  have hdig : (pyStrip d).data.all pyIsDigit = true := by
    simp only [keepCode, Bool.and_eq_true, pyIsdigitStr] at hk
    exact hk.2.2
  subst hc
  refine ⟨zfill_all_digits hdig 8, ?_⟩
  rw [zfill_length]
  omega

theorem normalize_cpv_nodup (l : List String) : (normalize_cpv l).Nodup :=
  (List.perm_insertionSort strOrd _).nodup_iff.mpr (List.nodup_dedup _)

theorem normalize_cpv_sorted (l : List String) : (normalize_cpv l).Sorted strOrd :=
  List.sorted_insertionSort strOrd _

/-- C9: Target-criteria normalization is idempotent: running the
normalization of `run_placsp` on its own (canonically listed) result
yields that result again. -/
theorem claim_C9_normalize_idempotent (l : List String) :
    normalize_cpv (normalize_cpv l) = normalize_cpv l := by
  have hkeep : ∀ c ∈ normalize_cpv l, keepCode c = true := by
    intro c hc
    rcases normalize_cpv_digits hc with ⟨hdig, hlen⟩
    have hne : c.data ≠ [] := by
      intro hnil
      rw [hnil] at hlen
      simp at hlen
    simp only [keepCode, Bool.and_eq_true, Bool.not_eq_true', pyIsdigitStr,
      pyStrip_of_digits hdig]
    refine ⟨?_, by simpa using hne, hdig⟩
    cases hc : c == ""
    · rfl
    · exact absurd (String.data_eq_of_eq (by simpa using (beq_iff_eq.mp hc))) hne
  have hmap : ∀ c ∈ normalize_cpv l, zfill (pyStrip c) 8 = c := by
    intro c hc
    rcases normalize_cpv_digits hc with ⟨hdig, hlen⟩
    rw [pyStrip_of_digits hdig, zfill_of_le hlen]
  show List.insertionSort strOrd _ = _
  rw [List.filter_eq_self.mpr hkeep, map_eq_self_of_mem hmap,
    List.dedup_eq_self.mpr (normalize_cpv_nodup l),
    (normalize_cpv_sorted l).insertionSort_eq]

/-- C7, as stated, is false: a purely numeric candidate longer than
8 characters survives normalization unchanged (`zfill(8)` never
truncates), so the normalized target set of `["123456789"]` contains
the 9-character code `"123456789"`. -/
theorem claim_C7_counterexample :
    "123456789" ∈ normalize_cpv ["123456789"] ∧ ("123456789" : String).length ≠ 8 := by
  constructor
  · decide
  · decide

/-- C7, amended: Every code in the normalized target set is a
numeric string of length at least 8, obtained from some surviving
candidate by stripping and left-zero-padding to width 8 (longer
candidates are kept unchanged). -/
theorem claim_C7_normalized_codes (l : List String) (c : String)
    (h : c ∈ normalize_cpv l) :
    c.data.all pyIsDigit = true ∧ 8 ≤ c.length ∧
      ∃ d ∈ l, keepCode d = true ∧ c = zfill (pyStrip d) 8 := by
  rcases normalize_cpv_digits h with ⟨hdig, hlen⟩
  exact ⟨hdig, hlen, mem_normalize_cpv.mp h⟩

theorem claim_C7_witness :
    "00000123" ∈ normalize_cpv ["abc", "123"] ∧
      ("00000123" : String).data.all pyIsDigit = true ∧ 8 ≤ ("00000123" : String).length := by
  have hmem : "00000123" ∈ normalize_cpv ["abc", "123"] := by decide
  have h := claim_C7_normalized_codes ["abc", "123"] "00000123" hmem
  exact ⟨hmem, h.1, h.2.1⟩

/-- C4, as stated, is false on the empty caller list: `run_placsp`
replaces a falsy `cpv` argument (`None` or `[]`) by `DEFAULT_CPV`
before normalizing, so a run with the empty candidate list proceeds
even though the normalized set of the supplied candidates is empty. -/
theorem claim_C4_counterexample :
    normalize_cpv [] = [] ∧
      run_placsp okEmptyDownload "2024-03-05" (some []) = .ok [] :=
  ⟨rfl, rfl⟩

/-- C4, amended: For every non-empty caller-supplied candidate
list, `run_placsp` fails with the configuration error if and only if
the normalized set of that list is empty, and in that case the result
does not depend on the download collaborator (the error precedes any
download). -/
theorem claim_C4_configuration_error (d d' : Unit → Except Unit ZipFile)
    (iso : String) (l : List String) (hl : l ≠ []) :
    (run_placsp d iso (some l) = .error .configurationError ↔ normalize_cpv l = []) ∧
      (normalize_cpv l = [] →
        run_placsp d iso (some l) = run_placsp d' iso (some l)) := by
  have hle : l.isEmpty = false := by
    cases l with
    | nil => exact absurd rfl hl
    | cons a t => rfl
  by_cases hn : normalize_cpv l = []
  · constructor
    · simp [run_placsp, hle, hn]
    · intro _
      simp [run_placsp, hle, hn]
  · have hne : (normalize_cpv l).isEmpty = false := by
      cases h : normalize_cpv l with
      | nil => exact absurd h hn
      | cons a t => rfl
    have hrun : run_placsp d iso (some l) =
        match d () with
        | .error _ => .error .retrievalError
        | .ok z => .ok (process_zip_bytes z iso (normalize_cpv l)) := by
      simp [run_placsp, hle, hne]
    constructor
    · rw [hrun]
      cases hd : d () with
      | error e => simp [hn]
      | ok z => simp [hn]
    · intro h
      exact absurd h hn

theorem claim_C4_witness :
    (run_placsp okEmptyDownload "2024-03-05" (some ["abc", "123"]) =
        .error .configurationError ↔ normalize_cpv ["abc", "123"] = []) ∧
      normalize_cpv ["abc", "123"] = ["00000123"] ∧
      run_placsp okEmptyDownload "2024-03-05" (some ["abc", "123"]) = .ok [] := by
  refine ⟨(claim_C4_configuration_error okEmptyDownload okEmptyDownload
    "2024-03-05" ["abc", "123"] (by decide)).1, by decide, rfl⟩

/-! ### Entry-level claims -/

theorem scenario_updated_value :
    stringQueryChild scenarioEntry "updated" = "2024-03-05T10:00:00+01:00" := by
  simp [stringQueryChild, scenarioEntry, XNode.children, XNode.tag,
    stringValue, stringValueList]

theorem scenario_text1_updated : childString scenarioEntry "updated" = "2" := by
  unfold childString
  rw [scenario_updated_value]
  decide

theorem scenario_date_rejected :
    entry_is_for_date scenarioEntry "2024-03-05" = false := by
  simp only [entry_is_for_date, scenario_text1_updated]
  decide

/-- C2 describes the intended predicate, but the code is wrong: `text1`
returns only the first character of the `updated` value (`res[0]` of
lxml's string-typed XPath result), so an entry updated
`2024-03-05T10:00:00+01:00` is rejected for target date `2024-03-05`
although its timestamp does start with that date. -/
theorem claim_C2_first_char_date_bug :
    stringQueryChild scenarioEntry "updated" = "2024-03-05T10:00:00+01:00" ∧
      pyStartswith (stringQueryChild scenarioEntry "updated") "2024-03-05" = true ∧
      childString scenarioEntry "updated" = "2" ∧
      entry_is_for_date scenarioEntry "2024-03-05" = false := by
  refine ⟨scenario_updated_value, ?_, scenario_text1_updated, scenario_date_rejected⟩
  rw [scenario_updated_value]
  decide

/-- C3: The extracted `cpv` field is the semicolon-join of a
lexicographically sorted duplicate-free list with exactly the same
members as the entry's classification-code values; on the codes
`["45261215","45261215","09330000"]` it equals `"09330000;45261215"`. -/
theorem claim_C3_cpv_dedup_sorted :
    (∀ e : XNode, ∃ S : List String,
        (extract_fields e).cpv = String.intercalate ";" S ∧
          S.Sorted strOrd ∧ S.Nodup ∧ ∀ c, c ∈ S ↔ c ∈ entry_cpv_codes e) ∧
      (extract_fields exDupEntry).cpv = "09330000;45261215" := by
  constructor
  · intro e
    refine ⟨List.insertionSort strOrd (entry_cpv_codes e).dedup, rfl,
      List.sorted_insertionSort strOrd _,
      (List.perm_insertionSort strOrd _).nodup_iff.mpr (List.nodup_dedup _), ?_⟩
    intro c
    simp [List.mem_insertionSort, List.mem_dedup]
  · have h : entry_cpv_codes exDupEntry = ["45261215", "45261215", "09330000"] := by
      simp [entry_cpv_codes, exDupEntry, XNode.descendants, descList, XNode.tag, XNode.text]
    show joinCodes (entry_cpv_codes exDupEntry) = _
    rw [h]
    decide

/-- C8: Field extraction is total, and each of the eight record
fields is the empty string whenever its query matches nothing: no
`title`/`updated` child, no `link` child carrying `href`, no matching
descendant, or no classification code. -/
theorem claim_C8_missing_fields_empty (e : XNode) :
    (e.children.find? (fun c => c.tag == "title") = none →
        (extract_fields e).objeto = "") ∧
    (e.children.find? (fun c => c.tag == "updated") = none →
        (extract_fields e).fecha_updated = "") ∧
    (e.children.filterMap
        (fun c => if c.tag == "link" then c.attrs.lookup "href" else none) = [] →
        (extract_fields e).enlace = "") ∧
    (e.descendants.find? (fun c => c.tag == "ContractFolderID") = none →
        (extract_fields e).expediente = "") ∧
    (e.descendants.find? (fun c => c.tag == "ContractingPartyName") = none →
        (extract_fields e).organo = "") ∧
    (e.descendants.find? (fun c => c.tag == "ContractFolderStatus") = none →
        (extract_fields e).estado = "") ∧
    (e.descendants.find? (fun c => c.tag == "TotalAmount") = none →
        (extract_fields e).importe = "") ∧
    (entry_cpv_codes e = [] → (extract_fields e).cpv = "") := by
  refine ⟨fun h => ?_, fun h => ?_, fun h => ?_, fun h => ?_, fun h => ?_,
    fun h => ?_, fun h => ?_, fun h => ?_⟩
  · show childString e "title" = ""
    unfold childString stringQueryChild
    rw [h]
    rfl
  · show childString e "updated" = ""
    unfold childString stringQueryChild
    rw [h]
    rfl
  · show linkHref e = ""
    unfold linkHref stringQueryHref
    rw [h]
    rfl
  · show descString e "ContractFolderID" = ""
    unfold descString stringQueryDesc
    rw [h]
    rfl
  · show descString e "ContractingPartyName" = ""
    unfold descString stringQueryDesc
    rw [h]
    rfl
  · show descString e "ContractFolderStatus" = ""
    unfold descString stringQueryDesc
    rw [h]
    rfl
  · show descString e "TotalAmount" = ""
    unfold descString stringQueryDesc
    rw [h]
    rfl
  · show joinCodes (entry_cpv_codes e) = ""
    rw [h]
    rfl

theorem claim_C8_witness :
    (extract_fields emptyEntry).objeto = "" ∧
      (extract_fields emptyEntry).fecha_updated = "" ∧
      (extract_fields emptyEntry).enlace = "" ∧
      (extract_fields emptyEntry).expediente = "" ∧
      (extract_fields emptyEntry).organo = "" ∧
      (extract_fields emptyEntry).estado = "" ∧
      (extract_fields emptyEntry).importe = "" ∧
      (extract_fields emptyEntry).cpv = "" := by
  have h := claim_C8_missing_fields_empty emptyEntry
  have hd : emptyEntry.descendants = [] := by
    simp [emptyEntry, XNode.descendants, descList]
  have hc : entry_cpv_codes emptyEntry = [] := by
    simp [entry_cpv_codes, hd]
  exact ⟨h.1 rfl, h.2.1 rfl, h.2.2.1 rfl, h.2.2.2.1 (by rw [hd]; rfl),
    h.2.2.2.2.1 (by rw [hd]; rfl), h.2.2.2.2.2.1 (by rw [hd]; rfl),
    h.2.2.2.2.2.2.1 (by rw [hd]; rfl), h.2.2.2.2.2.2.2 hc⟩

/-- C10: Code matching is verbatim string membership of the
entry's code values in the target set — entry-side codes are never
normalized — so an entry all of whose codes differ textually from
every target does not match. -/
theorem claim_C10_verbatim_code_match :
    (∀ (e : XNode) (targets : List String),
        codesIntersect (entry_cpv_codes e) targets = true ↔
          ∃ c, c ∈ entry_cpv_codes e ∧ c ∈ targets) ∧
      ∀ (e : XNode) (targets : List String),
        (∀ c ∈ entry_cpv_codes e, c ∉ targets) →
          codesIntersect (entry_cpv_codes e) targets = false := by
  have hmain : ∀ (e : XNode) (targets : List String),
      codesIntersect (entry_cpv_codes e) targets = true ↔
        ∃ c, c ∈ entry_cpv_codes e ∧ c ∈ targets := by
    intro e targets
    simp [codesIntersect, List.any_eq_true, List.elem_iff]
  refine ⟨hmain, fun e targets h => ?_⟩
  cases hb : codesIntersect (entry_cpv_codes e) targets
  · rfl
  · rcases (hmain e targets).mp hb with ⟨c, hc, hct⟩
    exact absurd hct (h c hc)

theorem claim_C10_witness :
    entry_cpv_codes mismatchEntry = ["9330000"] ∧
      codesIntersect (entry_cpv_codes mismatchEntry) ["09330000"] = false ∧
      digitsToNat "9330000".data = digitsToNat "09330000".data := by
  have h : entry_cpv_codes mismatchEntry = ["9330000"] := by
    simp [entry_cpv_codes, mismatchEntry, XNode.descendants, descList, XNode.tag, XNode.text]
  refine ⟨h, claim_C10_verbatim_code_match.2 mismatchEntry ["09330000"] ?_, by decide⟩
  rw [h]
  decide

/-! ### Pipeline-level claims -/

theorem scenario_iter_entries : iter_entries scenarioToks = [scenarioEntry] := by
  simp [iter_entries, scenarioToks, recoverParse, rstep, List.foldl, unwindTo, unwindCarry,
    attachNode, closeFrame, addChild, addText, finishStack, finishInto, allNodes,
    XNode.descendants, descList, XNode.tag, scenarioEntry]

/-- C1 describes the intended output invariant, but the code is wrong:
on the spec's scenario-A archive — whose single parsed entry genuinely
carries the target date in its `updated` timestamp and a matching
classification code — the pipeline outputs nothing, because the date
test compares the one-character `text1` result against a 10-character
ISO date and is therefore unsatisfiable; the claimed correspondence
holds only vacuously. -/
theorem claim_C1_matching_entry_dropped :
    iter_entries scenarioToks = [scenarioEntry] ∧
      pyStartswith (stringQueryChild scenarioEntry "updated") "2024-03-05" = true ∧
      codesIntersect (entry_cpv_codes scenarioEntry) ["45261215"] = true ∧
      process_zip_bytes scenarioZip "2024-03-05" ["45261215"] = [] := by
  refine ⟨scenario_iter_entries, ?_, ?_, ?_⟩
  · rw [scenario_updated_value]
    decide
  · have h : entry_cpv_codes scenarioEntry = ["45261215"] := by
      simp [entry_cpv_codes, scenarioEntry, XNode.descendants, descList, XNode.tag, XNode.text]
    rw [h]
    decide
  · have hA : isAtomName "licitaciones.atom" = true := by decide
    simp [process_zip_bytes, scenarioZip, hA, scenario_iter_entries, scenario_date_rejected]

/-- C5: Anomalies inside the archive degrade gracefully: a member
whose name lacks the feed suffix contributes nothing, a listed member
that fails to open contributes nothing, and a run as a whole can only
end in the configuration error, the retrieval error, or a normal
result. -/
theorem claim_C5_error_propagation :
    (∀ (iso : String) (targets : List String) (pre post : List Member)
        (name : String) (content : Option (List Tok)),
        isAtomName name = false →
          process_zip_bytes ⟨pre ++ ⟨name, content⟩ :: post⟩ iso targets =
            process_zip_bytes ⟨pre ++ post⟩ iso targets) ∧
      (∀ (iso : String) (targets : List String) (pre post : List Member) (name : String),
        process_zip_bytes ⟨pre ++ ⟨name, none⟩ :: post⟩ iso targets =
          process_zip_bytes ⟨pre ++ post⟩ iso targets) ∧
      ∀ (d : Unit → Except Unit ZipFile) (iso : String) (cpv : Option (List String)),
        run_placsp d iso cpv = .error .configurationError ∨
          run_placsp d iso cpv = .error .retrievalError ∨
          ∃ rows, run_placsp d iso cpv = .ok rows := by
  refine ⟨fun iso targets pre post name content hA => ?_,
    fun iso targets pre post name => ?_, fun d iso cpv => ?_⟩
  · simp [process_zip_bytes, List.flatMap_append, List.flatMap_cons, hA]
  · simp [process_zip_bytes, List.flatMap_append, List.flatMap_cons]
  · simp only [run_placsp]
    split
    · exact Or.inl rfl
    · split
      · exact Or.inr (Or.inl rfl)
      · exact Or.inr (Or.inr ⟨_, rfl⟩)

theorem claim_C5_witness :
    isAtomName "README.txt" = false ∧
      process_zip_bytes ⟨[⟨"README.txt", some []⟩]⟩ "2024-03-05" ["09330000"] =
        process_zip_bytes ⟨[]⟩ "2024-03-05" ["09330000"] ∧
      process_zip_bytes ⟨[⟨"feed1.atom", none⟩]⟩ "2024-03-05" ["09330000"] =
        process_zip_bytes ⟨[]⟩ "2024-03-05" ["09330000"] := by
  refine ⟨by decide, ?_, ?_⟩
  · exact claim_C5_error_propagation.1 "2024-03-05" ["09330000"] [] []
      "README.txt" (some []) (by decide)
  · exact claim_C5_error_propagation.2.1 "2024-03-05" ["09330000"] [] [] "feed1.atom"

/-! ### C6: tolerant parsing -/

theorem rstep_open (stack : List Frame) (done : List XNode) (t : String)
    (a : List (String × String)) :
    rstep (stack, done) (.openT t a) = (⟨t, a, "", []⟩ :: stack, done) := by
  cases stack <;> rfl

theorem rstep_text_cons (f : Frame) (rest : List Frame) (done : List XNode) (s : String) :
    rstep (f :: rest, done) (.textT s) = (addText f s :: rest, done) := rfl

theorem rstep_close (stack : List Frame) (done : List XNode) (t : String) :
    rstep (stack, done) (.closeT t) =
      if (stack.map Frame.tag).contains t then unwindTo t stack done
      else (stack, done) := by
  cases stack <;> rfl

theorem strictGo_open (ts : List Tok) (stack : List Frame) (done : List XNode)
    (t : String) (a : List (String × String)) :
    strictGo (.openT t a :: ts) stack done = strictGo ts (⟨t, a, "", []⟩ :: stack) done := by
  cases stack <;> rfl

theorem strictGo_text_cons (ts : List Tok) (f : Frame) (rest : List Frame)
    (done : List XNode) (s : String) :
    strictGo (.textT s :: ts) (f :: rest) done = strictGo ts (addText f s :: rest) done := rfl

theorem strictGo_close_cons (ts : List Tok) (f : Frame) (rest : List Frame)
    (done : List XNode) (t : String) :
    strictGo (.closeT t :: ts) (f :: rest) done =
      if f.tag = t then
        match rest with
        | [] => strictGo ts [] (closeFrame f :: done)
        | g :: rs => strictGo ts (addChild g (closeFrame f) :: rs) done
      else none := rfl

theorem strictGo_recover (toks : List Tok) :
    ∀ (stack : List Frame) (done out : List XNode),
      strictGo toks stack done = some out →
      (finishStack (List.foldl rstep (stack, done) toks).1
        (List.foldl rstep (stack, done) toks).2).reverse = out := by
  induction toks with
  | nil =>
    intro stack done out h
    cases stack with
    | nil =>
      simp only [strictGo, Option.some.injEq] at h
      simp [List.foldl, finishStack, h]
    | cons f rest => simp [strictGo] at h
  | cons tok ts ih =>
    intro stack done out h
    cases tok with
    | openT t a =>
      rw [strictGo_open] at h
      rw [List.foldl_cons, rstep_open]
      exact ih _ _ _ h
    | textT s =>
      cases stack with
      | nil => simp [strictGo] at h
      | cons f rest =>
        rw [strictGo_text_cons] at h
        rw [List.foldl_cons, rstep_text_cons]
        exact ih _ _ _ h
    | closeT t =>
      cases stack with
      | nil => simp [strictGo] at h
      | cons f rest =>
        by_cases hft : f.tag = t
        · subst hft
          rw [strictGo_close_cons, if_pos rfl] at h
          rw [List.foldl_cons, rstep_close]
          have hc : ((f :: rest).map Frame.tag).contains f.tag = true := by
            simp [List.contains_cons]
          rw [if_pos hc]
          have hu : unwindTo f.tag (f :: rest) done =
              attachNode (closeFrame f) rest done := by
            simp [unwindTo]
          rw [hu]
          cases rest with
          | nil => exact ih _ _ _ h
          | cons g rs => exact ih _ _ _ h
        · rw [strictGo_close_cons, if_neg hft] at h
          exact absurd h (by simp)

/-- C6: Feed parsing is total and tolerant: whenever the strict
parser accepts a token stream, the recovering parser returns the same
forest; a stream truncated after an unclosed `entry` still yields both
recoverable entries; and a stream with no well-formed element at all
yields zero entries instead of failing. -/
theorem claim_C6_tolerant_parsing :
    (∀ (toks : List Tok) (forest : List XNode),
        strictParse toks = some forest → recoverParse toks = forest) ∧
      iter_entries [.openT "feed" [], .openT "entry" [], .closeT "entry", .openT "entry" []] =
        [.mk "entry" [] "" [], .mk "entry" [] "" []] ∧
      iter_entries [.closeT "a", .textT "garbage", .closeT "b"] = [] := by
  refine ⟨fun toks forest h => ?_, ?_, ?_⟩
  · have hg := strictGo_recover toks [] [] forest h
    unfold recoverParse
    rcases hp : List.foldl rstep ([], []) toks with ⟨s, d⟩
    rw [hp] at hg
    exact hg
  · simp [iter_entries, recoverParse, rstep, List.foldl, finishStack, finishInto, unwindTo,
      attachNode, closeFrame, addChild, allNodes, XNode.descendants, descList, XNode.tag]
  · simp [iter_entries, recoverParse, rstep, List.foldl, finishStack, allNodes]

theorem claim_C6_witness :
    strictParse wfToks = some wfForest ∧ recoverParse wfToks = wfForest := by
  have h : strictParse wfToks = some wfForest := rfl
  exact ⟨h, claim_C6_tolerant_parsing.1 wfToks wfForest h⟩

end Placsp
